import Mathlib

/-!
Verification of the codex-monitor editor extension.

The embedding follows the two TypeScript sources:
* `src/extension.ts` — the current extension (classifier `getCodexLikeEditInfo`,
  sound fallback chain `playViaPowerShellBeep`, dispatcher `handleCodexLikeEdit`).
* an earlier variant (classifier `isLikelyFromCodex` with a language allow-list).

External effects (process execution via `execFileAsync`, the `wslpath` helper)
are modelled by oracles returning `Except`, mirroring the try/catch structure of
the source; the diagnostic output channel is modelled as an explicit list of
appended log lines.
-/

namespace CodexMonitor

/-- One entry of `event.contentChanges`: a change fragment. Only the inserted
`text` is read by the code; `rangeLength` records how many characters the
fragment deletes or replaces (never consulted by the classifier). -/
structure ContentChange where
  rangeLength : Nat
  text : String
deriving DecidableEq

/-- The fields of `event.document` the code reads. -/
structure TextDocument where
  uriScheme : String
  fileName : String
  languageId : String
deriving DecidableEq

/-- A `vscode.TextDocumentChangeEvent`. -/
structure TextDocumentChangeEvent where
  document : TextDocument
  contentChanges : List ContentChange
deriving DecidableEq

/-- The configuration store for key `codexMonitor.minInsertedLength`:
`none` when the store has no value for the key. `get<number>(key, default)`
is modelled by `Option.getD`. -/
abbrev Config : Type := Option Int

/-- The result record of `getCodexLikeEditInfo` (type `CodexEditInfo`). -/
structure CodexEditInfo where
  insertedLength : Nat
  threshold : Int
deriving DecidableEq

/-- `event.contentChanges.map((change) => change.text.length).reduce((sum, length) => sum + length, 0)`
— the inserted-character total, as computed by both classifier variants. -/
def insertedLengthOf (event : TextDocumentChangeEvent) : Nat :=
  (event.contentChanges.map (fun change => change.text.length)).foldl
    (fun sum length => sum + length) 0

/-- `getCodexLikeEditInfo` from `src/extension.ts` (lines 167–194): skips
non-file documents and empty change lists, sums inserted characters, reads the
threshold from configuration with default 10, and returns the info record only
when the insertion meets the threshold. -/
def getCodexLikeEditInfo (cfg : Config) (event : TextDocumentChangeEvent) :
    Option CodexEditInfo :=
  if event.document.uriScheme ≠ "file" then
    none
  else if event.contentChanges.length = 0 then
    none
  else
    let insertedLength := insertedLengthOf event
    let threshold := cfg.getD 10
    if (insertedLength : Int) < threshold then
      none
    else
      some { insertedLength := insertedLength, threshold := threshold }

/-- The language allow-list of the variant classifier. -/
def allowedLanguages : List String :=
  ["typescript", "javascript", "typescriptreact", "javascriptreact"]

/-- `isLikelyFromCodex` from the unnamed variant source: additionally declines
documents whose language is not in `allowedLanguages`, and defaults the
threshold to 200. -/
def isLikelyFromCodex (cfg : Config) (event : TextDocumentChangeEvent) : Bool :=
  if event.document.uriScheme ≠ "file" then
    false
  else if ¬ allowedLanguages.contains event.document.languageId then
    false
  else if event.contentChanges.length = 0 then
    false
  else
    let insertedLength := insertedLengthOf event
    let threshold := cfg.getD 200
    decide ((insertedLength : Int) ≥ threshold)

/-- The threshold value the variant classifier compares against. -/
def variantThreshold (cfg : Config) : Int := cfg.getD 200

/-- A concrete large edit event on a file-backed TypeScript document:
one fragment inserting 300 characters. -/
def evLarge : TextDocumentChangeEvent :=
  { document := { uriScheme := "file", fileName := "/home/user/foo.ts",
                  languageId := "typescript" }
    contentChanges := [{ rangeLength := 0, text := String.mk (List.replicate 300 'a') }] }

/-- A concrete small edit event on a file-backed document: one fragment
inserting 3 characters. -/
def evSmall : TextDocumentChangeEvent :=
  { document := { uriScheme := "file", fileName := "/home/user/foo.ts",
                  languageId := "typescript" }
    contentChanges := [{ rangeLength := 0, text := "abc" }] }

/-- JavaScript regex class `\s` (the whitespace characters matched by
`/[\s'"]/`). -/
def jsWhitespace (c : Char) : Bool :=
  c = '\t' || c = '\n' || c = '\u000B' || c = '\u000C' || c = '\r' || c = ' ' ||
  c = '\u00A0' || c = '\u1680' ||
  ('\u2000' ≤ c && c ≤ '\u200A') ||
  c = '\u2028' || c = '\u2029' || c = '\u202F' || c = '\u205F' ||
  c = '\u3000' || c = '\uFEFF'

/-- A character matched by the regex `/[\s'"]/` of `quoteArgForLog`. -/
def needsQuoting (c : Char) : Bool :=
  jsWhitespace c || c = '\'' || c = '"'

/-- `arg.replace(/"/g, '\\"')`: every double quote is replaced by a backslash
followed by a double quote. -/
def escapeDoubleQuotes (arg : String) : String :=
  String.mk (arg.data.flatMap (fun c => if c = '"' then ['\\', '"'] else [c]))

/-- `quoteArgForLog` from `src/extension.ts` (lines 28–34). -/
def quoteArgForLog (arg : String) : String :=
  if arg.data.any needsQuoting then
    let escaped := escapeDoubleQuotes arg
    "\"" ++ escaped ++ "\""
  else
    arg

/-- `formatCommandForLog` from `src/extension.ts` (lines 36–38):
`[command, ...args].map(quoteArgForLog).join(" ")`. -/
def formatCommandForLog (command : String) (args : List String) : String :=
  String.intercalate " " ((command :: args).map quoteArgForLog)

/-- The fixed PowerShell script of `playViaPowerShellBeep`. -/
def powershellScript : String :=
  String.intercalate "; "
    ["$ErrorActionPreference = \"Stop\"",
     "[System.Media.SystemSounds]::Beep.Play()"]

/-- The fixed argument list passed to every PowerShell candidate. -/
def beepArgs : List String := ["-NoProfile", "-Command", powershellScript]

/-- A playback candidate (`{ command, label }`). -/
structure Candidate where
  command : String
  label : String
deriving DecidableEq

/-- The result record of a successful beep
(`{ id: "powershell-beep", label, command }`; the constant `id` is omitted). -/
structure SoundPlaybackMethod where
  label : String
  command : Option String
deriving DecidableEq

deriving instance DecidableEq for Except

/-- Oracle for `execFileAsync`: invoking an executable with arguments either
succeeds or throws an error carrying a message. -/
def ExecOracle : Type := String → List String → Except String Unit

/-- Oracle for the external `wslpath -u` helper: translating a Windows path
either yields stdout or throws an error carrying a message. -/
def WslOracle : Type := String → Except String String

/-- Result of running the candidate loop: the candidates actually invoked (in
order of invocation), the log lines appended, and the value returned. -/
structure ChainResult where
  attempted : List Candidate
  log : List String
  played : Option SoundPlaybackMethod
deriving DecidableEq

/-- The failure log line of the candidate loop. -/
def candidateFailLine (label fullCommand msg : String) : String :=
  "PowerShell beep fallback failed (" ++ label ++ ") with command " ++
    fullCommand ++ ": " ++ msg

/-- The attempt log line of the candidate loop. -/
def candidateAttemptLine (fullCommand : String) : String :=
  "Attempting sound playback with command: " ++ fullCommand

/-- The `for (const candidate of candidates)` loop of `playViaPowerShellBeep`
(lines 138–161): log the attempt, invoke the candidate, return on success, log
the failure and continue otherwise. -/
def tryCandidates (exec : ExecOracle) : List Candidate → ChainResult
  | [] => { attempted := [], log := [], played := none }
  | c :: rest =>
    let fullCommand := formatCommandForLog c.command beepArgs
    match exec c.command beepArgs with
    | Except.ok _ =>
        { attempted := [c]
          log := [candidateAttemptLine fullCommand]
          played := some { label := c.label, command := some fullCommand } }
    | Except.error msg =>
        let r := tryCandidates exec rest
        { attempted := c :: r.attempted
          log := candidateAttemptLine fullCommand ::
                   candidateFailLine c.label fullCommand msg :: r.log
          played := r.played }

/-- `playViaPowerShellBeep`, parametrised by the already-built candidate list:
the empty-list check (lines 131–136) followed by the candidate loop. -/
def playViaPowerShellBeepWith (exec : ExecOracle) (candidates : List Candidate) :
    ChainResult :=
  if candidates.isEmpty then
    { attempted := []
      log := ["No PowerShell candidates found for beep playback."]
      played := none }
  else
    tryCandidates exec candidates

/-- The success log line of `logSoundPlaybackSuccess`. -/
def successLine (method : SoundPlaybackMethod) : String :=
  let commandInfo := match method.command with
    | some c => " Command: " ++ c
    | none => ""
  "Sound playback succeeded via PowerShell beep (" ++ method.label ++ ")." ++
    commandInfo

/-- `playCompletionSound` (lines 196–206), parametrised by the candidate list:
runs the beep chain, then appends either the success line or the summary
failure line. Returns the full log. -/
def playCompletionSoundWith (exec : ExecOracle) (candidates : List Candidate) :
    List String :=
  let r := playViaPowerShellBeepWith exec candidates
  match r.played with
  | some method => r.log ++ [successLine method]
  | none =>
      r.log ++ ["Sound playback failed while attempting the PowerShell beep."]

/-- The log line `toWslPath` appends when `wslpath` fails. -/
def wslFailLine (windowsPath msg : String) : String :=
  "Failed to convert Windows path with wslpath (" ++ windowsPath ++ "): " ++ msg

/-- `toWslPath` (lines 40–52): invoke `wslpath -u`, trim its stdout; on error,
log the failure and return `undefined`. Returns the appended log lines together
with the optional translated path. -/
def toWslPath (wsl : WslOracle) (windowsPath : String) :
    List String × Option String :=
  match wsl windowsPath with
  | Except.ok stdout => ([], some stdout.trim)
  | Except.error msg => ([wslFailLine windowsPath msg], none)

/-- The Windows path of legacy PowerShell passed to `toWslPath`. -/
def winPowershellPath : String :=
  "C:\\Windows\\System32\\WindowsPowerShell\\v1.0\\powershell.exe"

/-- The Windows path of PowerShell 7 passed to `toWslPath`. -/
def winPwshPath : String := "C:\\Program Files\\PowerShell\\7\\pwsh.exe"

/-- The always-present absolute-path candidate for legacy PowerShell. -/
def absPowershellCandidate : Candidate :=
  { command := "/mnt/c/Windows/System32/WindowsPowerShell/v1.0/powershell.exe"
    label := "powershell.exe (absolute /mnt/c)" }

/-- The always-present bare-name candidate for PowerShell 7. -/
def barePwshCandidate : Candidate :=
  { command := "pwsh.exe", label := "pwsh.exe (PATH)" }

/-- The always-present absolute-path candidate for PowerShell 7. -/
def absPwshCandidate : Candidate :=
  { command := "/mnt/c/Program Files/PowerShell/7/pwsh.exe"
    label := "pwsh.exe (absolute /mnt/c)" }

/-- `getWslPowerShellCandidates` (lines 66–100), with the `isWSL()` test as a
parameter: translates the two Windows paths, then filters `undefined` out of
the five-slot list. Returns the log lines appended by the two translations and
the candidate list. -/
def getWslPowerShellCandidates (isWsl : Bool) (wsl : WslOracle) :
    List String × List Candidate :=
  if ¬ isWsl then
    ([], [])
  else
    let log1 := (toWslPath wsl winPowershellPath).1
    let powershellWslPath := (toWslPath wsl winPowershellPath).2
    let log2 := (toWslPath wsl winPwshPath).1
    let pwsh7WslPath := (toWslPath wsl winPwshPath).2
    (log1 ++ log2,
      [ some absPowershellCandidate,
        powershellWslPath.map
          (fun p => { command := p, label := "powershell.exe (wslpath)" }),
        some barePwshCandidate,
        some absPwshCandidate,
        pwsh7WslPath.map
          (fun p => { command := p, label := "pwsh.exe (wslpath)" }) ].filterMap id)

/-- The candidate list used by `playViaPowerShellBeep` (lines 124–129): the
WSL-specific list in WSL, the two bare names elsewhere. Returns also the log
lines produced while building it. -/
def beepCandidates (isWsl : Bool) (wsl : WslOracle) :
    List String × List Candidate :=
  if isWsl then
    getWslPowerShellCandidates isWsl wsl
  else
    ([],
     [{ command := "powershell.exe", label := "powershell.exe (PATH)" },
      { command := "pwsh.exe", label := "pwsh.exe (PATH)" }])

/-- `playViaPowerShellBeep` (lines 115–162) in full: build the candidate list
from the environment, then run the chain over it. -/
def playViaPowerShellBeep (isWsl : Bool) (wsl : WslOracle) (exec : ExecOracle) :
    ChainResult :=
  let buildLog := (beepCandidates isWsl wsl).1
  let candidates := (beepCandidates isWsl wsl).2
  let r := playViaPowerShellBeepWith exec candidates
  { r with log := buildLog ++ r.log }

/-- `playCompletionSound` (lines 196–206) in full. -/
def playCompletionSound (isWsl : Bool) (wsl : WslOracle) (exec : ExecOracle) :
    List String :=
  let r := playViaPowerShellBeep isWsl wsl exec
  match r.played with
  | some method => r.log ++ [successLine method]
  | none =>
      r.log ++ ["Sound playback failed while attempting the PowerShell beep."]

/-- The side effects issued by the dispatcher and observed by the host. -/
structure DispatchEffects where
  log : List String
  notifications : List String
  statusBarMessages : List (String × Nat)
deriving DecidableEq

/-- The timestamped header line of `handleCodexLikeEdit`. -/
def dispatchHeaderLine (timestamp : String) (document : TextDocument)
    (info : CodexEditInfo) : String :=
  "[" ++ timestamp ++ "] Codex-like edit: " ++ toString info.insertedLength ++
    " chars (threshold " ++ toString info.threshold ++ ") in " ++
    document.fileName

/-- `handleCodexLikeEdit` (lines 212–234): log the header, fire-and-forget the
completion sound (whose log lines are appended as its asynchronous work runs),
show the notification, set the status-bar message. -/
def handleCodexLikeEdit (isWsl : Bool) (wsl : WslOracle) (exec : ExecOracle)
    (timestamp : String) (document : TextDocument) (info : CodexEditInfo) :
    DispatchEffects :=
  { log := dispatchHeaderLine timestamp document info ::
      playCompletionSound isWsl wsl exec
    notifications := ["Codex-like edit detected in: " ++ document.fileName]
    statusBarMessages := [("Codex-like edit finished", 3000)] }

/-- The `onDidChangeTextDocument` callback registered in `activate`
(lines 248–257): classify the event and dispatch when flagged. -/
def changeCallback (cfg : Config) (isWsl : Bool) (wsl : WslOracle)
    (exec : ExecOracle) (timestamp : String)
    (event : TextDocumentChangeEvent) : DispatchEffects :=
  match getCodexLikeEditInfo cfg event with
  | some info => handleCodexLikeEdit isWsl wsl exec timestamp event.document info
  | none => { log := [], notifications := [], statusBarMessages := [] }

/-- Replacement of every double quote by backslash–double-quote, written as a
plain recursion; used to state the quoting claim independently of
`escapeDoubleQuotes`. -/
def escapeSpec : List Char → List Char
  | [] => []
  | c :: cs => if c = '"' then '\\' :: '"' :: escapeSpec cs else c :: escapeSpec cs

/-- Joining strings with single spaces, written as a plain recursion; used to
state the formatting claim independently of `String.intercalate`. -/
def joinSpaces : List String → String
  | [] => ""
  | [s] => s
  | s :: rest => s ++ " " ++ joinSpaces rest

/-- The spec example event: three fragments with inserted-text lengths 3, 0 and
197 (the middle one a pure deletion of 5 characters). -/
def evSum : TextDocumentChangeEvent :=
  { document := { uriScheme := "file", fileName := "/home/user/foo.ts",
                  languageId := "typescript" }
    contentChanges :=
      [{ rangeLength := 0, text := "abc" },
       { rangeLength := 5, text := "" },
       { rangeLength := 2, text := String.mk (List.replicate 197 'x') }] }

/-- A large edit event on a Python file; used against the variant classifier. -/
def evPython : TextDocumentChangeEvent :=
  { document := { uriScheme := "file", fileName := "/home/user/foo.py",
                  languageId := "python" }
    contentChanges := [{ rangeLength := 0, text := String.mk (List.replicate 300 'a') }] }

/-- An exec oracle on which every invocation throws. -/
def execFailAll : ExecOracle := fun _ _ => Except.error "spawn ENOENT"

/-- An exec oracle on which exactly the given command succeeds. -/
def execOkFor (okCmd : String) : ExecOracle := fun cmd _ =>
  if cmd = okCmd then Except.ok () else Except.error "exit code 1"

/-- A `wslpath` oracle on which every translation throws. -/
def wslFailAll : WslOracle := fun _ => Except.error "wslpath not found"

/-- A `wslpath` oracle failing on the legacy-PowerShell path only. -/
def wslFailFirst : WslOracle := fun p =>
  if p = winPowershellPath then Except.error "wslpath not found"
  else Except.ok "/mnt/c/Program Files/PowerShell/7/pwsh.exe\n"

/-- Concrete candidates for exercising the fallback chain. -/
def candA : Candidate := { command := "a.exe", label := "A" }

/-- Second concrete candidate. -/
def candB : Candidate := { command := "b.exe", label := "B" }

/-- Third concrete candidate. -/
def candC : Candidate := { command := "c.exe", label := "C" }

theorem foldl_add_eq_sum (l : List Nat) :
    l.foldl (fun sum length => sum + length) 0 = l.sum := by
  simpa using (List.sum_eq_foldl (l := l)).symm

theorem insertedLengthOf_eq_sum (event : TextDocumentChangeEvent) :
    insertedLengthOf event =
      (event.contentChanges.map (fun change => change.text.length)).sum :=
  foldl_add_eq_sum _

theorem getCodexLikeEditInfo_eq (cfg : Config) (event : TextDocumentChangeEvent) :
    getCodexLikeEditInfo cfg event =
      if event.document.uriScheme = "file" ∧ event.contentChanges ≠ [] ∧
          cfg.getD 10 ≤ (insertedLengthOf event : Int) then
        some { insertedLength := insertedLengthOf event,
               threshold := cfg.getD 10 }
      else
        none := by
  unfold getCodexLikeEditInfo
  by_cases h1 : event.document.uriScheme = "file"
  · by_cases h2 : event.contentChanges = []
    · simp [h1, h2]
    · by_cases h3 : cfg.getD 10 ≤ (insertedLengthOf event : Int)
      · simp [h1, h2, h3, List.length_eq_zero, not_lt.mpr h3]
      · simp [h1, h2, h3, List.length_eq_zero, not_le.mp h3]
  · simp [h1]

theorem isLikelyFromCodex_eq (cfg : Config) (event : TextDocumentChangeEvent) :
    isLikelyFromCodex cfg event =
      (decide (event.document.uriScheme = "file") &&
       allowedLanguages.contains event.document.languageId &&
       decide (event.contentChanges ≠ []) &&
       decide (variantThreshold cfg ≤ (insertedLengthOf event : Int))) := by
  unfold isLikelyFromCodex variantThreshold
  by_cases h1 : event.document.uriScheme = "file"
  · by_cases h2 : allowedLanguages.contains event.document.languageId
    · by_cases h3 : event.contentChanges = []
      · simp [h1, h2, h3]
      · simp [h1, h2, h3, List.length_eq_zero, ge_iff_le]
    · simp [h1, h2, Bool.and_assoc]
  · simp [h1]

theorem tryCandidates_allFail (exec : ExecOracle) (cs : List Candidate)
    (hfail : ∀ c ∈ cs, exec c.command beepArgs ≠ Except.ok ()) :
    (tryCandidates exec cs).played = none ∧
    (tryCandidates exec cs).attempted = cs ∧
    (tryCandidates exec cs).log.length = 2 * cs.length := by
  induction cs with
  | nil => exact ⟨rfl, rfl, rfl⟩
  | cons c rest ih =>
      have hc := hfail c (List.mem_cons_self c rest)
      cases hx : exec c.command beepArgs with
      | ok u => cases u; exact absurd hx hc
      | error msg =>
          have ih' := ih (fun d hd => hfail d (List.mem_cons_of_mem c hd))
          simp only [tryCandidates, hx]
          refine ⟨ih'.1, ?_, ?_⟩
          · simp [ih'.2.1]
          · simp only [List.length_cons, ih'.2.2, List.length]
            omega

/-- Claim C1 (counterexample): with the configuration store empty, a 300
character insertion on a file-backed document is evaluated, and the threshold
the classifier uses and records is 10, not 200. -/
theorem minInsertedLength_default_counterexample :
    getCodexLikeEditInfo none evLarge =
      some { insertedLength := 300, threshold := 10 } ∧
    ¬ ({ insertedLength := 300, threshold := 10 } : CodexEditInfo).threshold = 200 := by
  refine ⟨?_, by decide⟩
  set_option maxRecDepth 4096 in decide

/-- Claim C1 (amended): when the configuration store has no value for
`codexMonitor.minInsertedLength`, the classifier of `src/extension.ts` uses and
records threshold 10; the earlier variant classifier compares against
default 200. -/
theorem minInsertedLength_default_amended :
    variantThreshold none = 200 ∧
    ∀ (event : TextDocumentChangeEvent) (info : CodexEditInfo),
      getCodexLikeEditInfo none event = some info → info.threshold = 10 := by
  refine ⟨rfl, ?_⟩
  intro event info h
  rw [getCodexLikeEditInfo_eq] at h
  split at h
  · simp only [Option.some.injEq] at h
    rw [← h]
    rfl
  · exact absurd h (by simp)

/-- Claim C1 (witness for the amended claim). -/
theorem minInsertedLength_default_amended_witness :
    getCodexLikeEditInfo none evLarge =
      some { insertedLength := 300, threshold := 10 } ∧
    ({ insertedLength := 300, threshold := 10 } : CodexEditInfo).threshold = 10 :=
  ⟨by set_option maxRecDepth 4096 in decide,
   minInsertedLength_default_amended.2 evLarge
     { insertedLength := 300, threshold := 10 }
     (by set_option maxRecDepth 4096 in decide)⟩

/-- Claim C2 (counterexample): a 3-character edit on a file-backed document
with one change fragment — below the default threshold — yields "none", not a
result with `flagged = false`. -/
theorem classify_none_counterexample :
    evSmall.document.uriScheme = "file" ∧
    evSmall.contentChanges.length ≠ 0 ∧
    getCodexLikeEditInfo none evSmall = none :=
  ⟨rfl, by decide, by decide⟩

/-- Claim C2 (amended): the classifier returns "none" exactly when the document
is not file-backed, or the event has zero change fragments, or the inserted
length is below the threshold; every other event yields the record of the
inserted length and the threshold (every returned result is flagged). -/
theorem classify_none_amended (cfg : Config) (event : TextDocumentChangeEvent) :
    getCodexLikeEditInfo cfg event =
      if event.document.uriScheme = "file" ∧ event.contentChanges ≠ [] ∧
          cfg.getD 10 ≤ (insertedLengthOf event : Int) then
        some { insertedLength := insertedLengthOf event,
               threshold := cfg.getD 10 }
      else
        none :=
  getCodexLikeEditInfo_eq cfg event

/-- Claim C3: for every evaluated edit event (file-backed, at least one
fragment) the classifier flags exactly when the inserted length meets the
threshold; likewise the variant classifier, when the language is allowed. -/
theorem flag_boundary_inclusive (cfg : Config) (event : TextDocumentChangeEvent)
    (hscheme : event.document.uriScheme = "file")
    (hchanges : event.contentChanges ≠ []) :
    ((getCodexLikeEditInfo cfg event).isSome = true ↔
        cfg.getD 10 ≤ (insertedLengthOf event : Int)) ∧
    (allowedLanguages.contains event.document.languageId = true →
      (isLikelyFromCodex cfg event = true ↔
        variantThreshold cfg ≤ (insertedLengthOf event : Int))) := by
  constructor
  · rw [getCodexLikeEditInfo_eq]
    split
    · next h => simp [h.2.2]
    · next h =>
        simp only [Option.isSome_none, Bool.false_eq_true, false_iff]
        intro hle
        exact h ⟨hscheme, hchanges, hle⟩
  · intro hlang
    have hmem : event.document.languageId ∈ allowedLanguages := by
      simpa using hlang
    rw [isLikelyFromCodex_eq]
    simp [hscheme, hmem, hchanges]

/-- Claim C3 (witness): with the threshold configured to 3, the 3-character
edit is flagged (boundary inclusive) by both classifiers, and with threshold 4
it is not. -/
theorem flag_boundary_inclusive_witness :
    (((getCodexLikeEditInfo (some 3) evSmall).isSome = true ↔
        (some (3 : Int)).getD 10 ≤ (insertedLengthOf evSmall : Int)) ∧
      (allowedLanguages.contains evSmall.document.languageId = true →
        (isLikelyFromCodex (some 3) evSmall = true ↔
          variantThreshold (some 3) ≤ (insertedLengthOf evSmall : Int)))) ∧
    (getCodexLikeEditInfo (some 3) evSmall).isSome = true ∧
    (getCodexLikeEditInfo (some 4) evSmall).isSome = false ∧
    isLikelyFromCodex (some 3) evSmall = true ∧
    isLikelyFromCodex (some 4) evSmall = false :=
  ⟨flag_boundary_inclusive (some 3) evSmall (by decide) (by decide),
   by decide, by decide, by decide, by decide⟩

/-- Claim C4: for every evaluated edit event the computed inserted length is
exactly the sum of the fragments' inserted-text lengths (fragments that delete
or replace contribute only their new text's length), and any returned result
records that sum. -/
theorem insertedLength_sum (cfg : Config) (event : TextDocumentChangeEvent)
    (hscheme : event.document.uriScheme = "file")
    (hchanges : event.contentChanges ≠ []) :
    insertedLengthOf event =
      (event.contentChanges.map (fun change => change.text.length)).sum ∧
    ∀ info : CodexEditInfo, getCodexLikeEditInfo cfg event = some info →
      info.insertedLength =
        (event.contentChanges.map (fun change => change.text.length)).sum := by
  refine ⟨insertedLengthOf_eq_sum event, ?_⟩
  intro info h
  rw [getCodexLikeEditInfo_eq] at h
  split at h
  · simp only [Option.some.injEq] at h
    rw [← h]
    exact insertedLengthOf_eq_sum event
  · exact absurd h (by simp)

/-- Claim C4 (witness): fragments with inserted lengths 3, 0 and 197 — one of
them deleting characters — sum to 200 and the classifier records 200. -/
theorem insertedLength_sum_witness :
    (insertedLengthOf evSum =
        (evSum.contentChanges.map (fun change => change.text.length)).sum ∧
      ∀ info : CodexEditInfo, getCodexLikeEditInfo none evSum = some info →
        info.insertedLength =
          (evSum.contentChanges.map (fun change => change.text.length)).sum) ∧
    insertedLengthOf evSum = 200 ∧
    getCodexLikeEditInfo none evSum =
      some { insertedLength := 200, threshold := 10 } :=
  ⟨insertedLength_sum none evSum (by decide) (by decide),
   by set_option maxRecDepth 4096 in decide,
   by set_option maxRecDepth 4096 in decide⟩

/-- Claim C5: the fallback chain tries its candidates strictly in declared
order and stops at the first succeeding candidate, reporting that candidate's
label and full command: whenever the candidate at position `i` succeeds, the
attempted candidates form the prefix up to some first-succeeding position
`j ≤ i`, so no candidate at a position greater than `i` is ever attempted. -/
theorem fallback_first_success (exec : ExecOracle) (candidates : List Candidate)
    (i : Nat) (hi : i < candidates.length)
    (hsucc : exec (candidates.get ⟨i, hi⟩).command beepArgs = Except.ok ()) :
    ∃ j, ∃ hj : j < candidates.length, j ≤ i ∧
      (tryCandidates exec candidates).attempted = candidates.take (j + 1) ∧
      exec (candidates.get ⟨j, hj⟩).command beepArgs = Except.ok () ∧
      (∀ m (hm : m < candidates.length), m < j →
        exec (candidates.get ⟨m, hm⟩).command beepArgs ≠ Except.ok ()) ∧
      (tryCandidates exec candidates).played =
        some { label := (candidates.get ⟨j, hj⟩).label,
               command := some (formatCommandForLog
                 (candidates.get ⟨j, hj⟩).command beepArgs) } := by
  induction candidates generalizing i with
  | nil => exact absurd hi (Nat.not_lt_zero i)
  | cons c rest ih =>
      cases hx : exec c.command beepArgs with
      | ok u =>
          cases u
          refine ⟨0, Nat.succ_pos _, Nat.zero_le i, ?_, hx, ?_, ?_⟩
          · simp [tryCandidates, hx]
          · intro m hm hlt
            exact absurd hlt (Nat.not_lt_zero m)
          · simp [tryCandidates, hx]
      | error msg =>
          cases i with
          | zero =>
              have hbad : exec c.command beepArgs = Except.ok () := hsucc
              rw [hx] at hbad
              exact Except.noConfusion hbad
          | succ n =>
              have hn : n < rest.length := Nat.lt_of_succ_lt_succ hi
              have hsucc' :
                  exec (rest.get ⟨n, hn⟩).command beepArgs = Except.ok () := by
                simpa using hsucc
              obtain ⟨j, hj, hji, hatt, hok, hmin, hpl⟩ := ih n hn hsucc'
              refine ⟨j + 1, Nat.succ_lt_succ hj, Nat.succ_le_succ hji,
                ?_, ?_, ?_, ?_⟩
              · simp [tryCandidates, hx, hatt]
              · simpa using hok
              · intro m hm hlt
                cases m with
                | zero =>
                    intro hbad
                    have hbad' : exec c.command beepArgs = Except.ok () := hbad
                    rw [hx] at hbad'
                    exact Except.noConfusion hbad'
                | succ m' =>
                    have hm' : m' < rest.length := Nat.lt_of_succ_lt_succ hm
                    have := hmin m' hm' (Nat.lt_of_succ_lt_succ hlt)
                    simpa using this
              · simp [tryCandidates, hx, hpl]

/-- Claim C5 (witness): with candidates A (fails), B (succeeds), C, only A and
B are attempted; C is never attempted. -/
theorem fallback_first_success_witness :
    (∃ j, ∃ hj : j < [candA, candB, candC].length, j ≤ 1 ∧
      (tryCandidates (execOkFor "b.exe") [candA, candB, candC]).attempted =
        [candA, candB, candC].take (j + 1) ∧
      execOkFor "b.exe" ([candA, candB, candC].get ⟨j, hj⟩).command beepArgs =
        Except.ok () ∧
      (∀ m (hm : m < [candA, candB, candC].length), m < j →
        execOkFor "b.exe" ([candA, candB, candC].get ⟨m, hm⟩).command beepArgs ≠
          Except.ok ()) ∧
      (tryCandidates (execOkFor "b.exe") [candA, candB, candC]).played =
        some { label := ([candA, candB, candC].get ⟨j, hj⟩).label,
               command := some (formatCommandForLog
                 ([candA, candB, candC].get ⟨j, hj⟩).command beepArgs) }) ∧
    (tryCandidates (execOkFor "b.exe") [candA, candB, candC]).attempted =
      [candA, candB] ∧
    candC ∉ (tryCandidates (execOkFor "b.exe") [candA, candB, candC]).attempted :=
  ⟨fallback_first_success (execOkFor "b.exe") [candA, candB, candC] 1
      (by decide) (by decide),
   by decide, by decide⟩

/-- Claim C6 (counterexample): one candidate that fails is attempted; the
diagnostic log then holds three lines (the attempt line, the failure line and
the summary line), not one-per-candidate plus a summary, which would be two. -/
theorem fallback_log_count_counterexample :
    (tryCandidates execFailAll [candA]).attempted.length = 1 ∧
    (playCompletionSoundWith execFailAll [candA]).length = 3 ∧
    ¬ (3 : Nat) = 1 + 1 :=
  ⟨by decide, by decide, by decide⟩

/-- Claim C6 (amended): when every candidate fails, the chain reports overall
failure after attempting all candidates, and the diagnostic log receives
exactly two lines per attempted candidate (the attempt announcement and the
failure diagnostic) plus one summary failure line. -/
theorem fallback_log_count_amended (exec : ExecOracle)
    (candidates : List Candidate) (hne : candidates ≠ [])
    (hfail : ∀ c ∈ candidates, exec c.command beepArgs ≠ Except.ok ()) :
    (playViaPowerShellBeepWith exec candidates).played = none ∧
    (playViaPowerShellBeepWith exec candidates).attempted = candidates ∧
    (playCompletionSoundWith exec candidates).length =
      2 * candidates.length + 1 := by
  have h := tryCandidates_allFail exec candidates hfail
  have hbeep : playViaPowerShellBeepWith exec candidates =
      tryCandidates exec candidates := by
    unfold playViaPowerShellBeepWith
    rw [if_neg (by simpa [List.isEmpty_iff] using hne)]
  refine ⟨by rw [hbeep]; exact h.1, by rw [hbeep]; exact h.2.1, ?_⟩
  unfold playCompletionSoundWith
  rw [hbeep]
  simp [h.1, h.2.2]

/-- Claim C6 (witness for the amended claim): two failing candidates produce
five log lines. -/
theorem fallback_log_count_amended_witness :
    (playViaPowerShellBeepWith execFailAll [candA, candB]).played = none ∧
    (playViaPowerShellBeepWith execFailAll [candA, candB]).attempted =
      [candA, candB] ∧
    (playCompletionSoundWith execFailAll [candA, candB]).length =
      2 * [candA, candB].length + 1 :=
  fallback_log_count_amended execFailAll [candA, candB] (by decide) (by decide)

theorem playWith_played_none (exec : ExecOracle) (cs : List Candidate)
    (hfail : ∀ c ∈ cs, exec c.command beepArgs ≠ Except.ok ()) :
    (playViaPowerShellBeepWith exec cs).played = none := by
  unfold playViaPowerShellBeepWith
  split
  · rfl
  · exact (tryCandidates_allFail exec cs hfail).1

/-- Claim C7: even when every external call (process execution and path
translation) fails, the edit callback completes with the informational
notification naming the document and the status-bar message both issued, while
the sound chain merely reports failure. -/
theorem dispatch_resilient (cfg : Config) (isWsl : Bool) (wsl : WslOracle)
    (exec : ExecOracle) (timestamp : String) (event : TextDocumentChangeEvent)
    (info : CodexEditInfo)
    (hexec : ∀ cmd args, exec cmd args ≠ Except.ok ())
    (hwsl : ∀ p s, wsl p ≠ Except.ok s)
    (hflag : getCodexLikeEditInfo cfg event = some info) :
    (changeCallback cfg isWsl wsl exec timestamp event).notifications =
      ["Codex-like edit detected in: " ++ event.document.fileName] ∧
    (changeCallback cfg isWsl wsl exec timestamp event).statusBarMessages =
      [("Codex-like edit finished", 3000)] ∧
    (playViaPowerShellBeep isWsl wsl exec).played = none := by
  have hplayed : (playViaPowerShellBeep isWsl wsl exec).played = none := by
    unfold playViaPowerShellBeep
    exact playWith_played_none exec (beepCandidates isWsl wsl).2
      (fun c _ => hexec c.command beepArgs)
  refine ⟨?_, ?_, hplayed⟩
  · unfold changeCallback
    rw [hflag]
    rfl
  · unfold changeCallback
    rw [hflag]
    rfl

/-- Claim C7 (witness): with every invocation throwing, the flagged 300
character edit still issues its notification and status-bar message. -/
theorem dispatch_resilient_witness :
    (changeCallback none true wslFailAll execFailAll "12:00:00" evLarge).notifications =
      ["Codex-like edit detected in: " ++ evLarge.document.fileName] ∧
    (changeCallback none true wslFailAll execFailAll "12:00:00" evLarge).statusBarMessages =
      [("Codex-like edit finished", 3000)] ∧
    (playViaPowerShellBeep true wslFailAll execFailAll).played = none :=
  dispatch_resilient none true wslFailAll execFailAll "12:00:00" evLarge
    { insertedLength := 300, threshold := 10 }
    (fun cmd args => by simp [execFailAll])
    (fun p s => by simp [wslFailAll])
    (by set_option maxRecDepth 4096 in decide)

/-- Claim C8: a failing `wslpath` invocation is non-fatal to candidate-list
construction: the failure is logged, only the corresponding translated-path
candidate is omitted, the absolute-path and bare-name candidates are still
produced, and every produced candidate is still attempted by the chain (shown
under an all-failing exec oracle, where no earlier candidate stops it). -/
theorem wslpath_failure_nonfatal (wsl : WslOracle) :
    (∀ e, wsl winPowershellPath = Except.error e →
      wslFailLine winPowershellPath e ∈ (getWslPowerShellCandidates true wsl).1 ∧
      (∀ c ∈ (getWslPowerShellCandidates true wsl).2,
        c.label ≠ "powershell.exe (wslpath)") ∧
      absPowershellCandidate ∈ (getWslPowerShellCandidates true wsl).2 ∧
      barePwshCandidate ∈ (getWslPowerShellCandidates true wsl).2 ∧
      absPwshCandidate ∈ (getWslPowerShellCandidates true wsl).2) ∧
    (∀ e, wsl winPwshPath = Except.error e →
      wslFailLine winPwshPath e ∈ (getWslPowerShellCandidates true wsl).1 ∧
      (∀ c ∈ (getWslPowerShellCandidates true wsl).2,
        c.label ≠ "pwsh.exe (wslpath)") ∧
      absPowershellCandidate ∈ (getWslPowerShellCandidates true wsl).2 ∧
      barePwshCandidate ∈ (getWslPowerShellCandidates true wsl).2 ∧
      absPwshCandidate ∈ (getWslPowerShellCandidates true wsl).2) ∧
    (∀ exec : ExecOracle, (∀ cmd args, exec cmd args ≠ Except.ok ()) →
      (tryCandidates exec (getWslPowerShellCandidates true wsl).2).attempted =
        (getWslPowerShellCandidates true wsl).2) := by
  refine ⟨?_, ?_, ?_⟩
  · intro e he
    cases hp2 : wsl winPwshPath with
    | ok s2 =>
        refine ⟨?_, ?_, ?_, ?_, ?_⟩ <;>
          simp [getWslPowerShellCandidates, toWslPath, he, hp2,
            absPowershellCandidate, barePwshCandidate, absPwshCandidate]
    | error e2 =>
        refine ⟨?_, ?_, ?_, ?_, ?_⟩ <;>
          simp [getWslPowerShellCandidates, toWslPath, he, hp2,
            absPowershellCandidate, barePwshCandidate, absPwshCandidate]
  · intro e he
    cases hp1 : wsl winPowershellPath with
    | ok s1 =>
        refine ⟨?_, ?_, ?_, ?_, ?_⟩ <;>
          simp [getWslPowerShellCandidates, toWslPath, he, hp1,
            absPowershellCandidate, barePwshCandidate, absPwshCandidate]
    | error e1 =>
        refine ⟨?_, ?_, ?_, ?_, ?_⟩ <;>
          simp [getWslPowerShellCandidates, toWslPath, he, hp1,
            absPowershellCandidate, barePwshCandidate, absPwshCandidate]
  · intro exec hexec
    exact (tryCandidates_allFail exec (getWslPowerShellCandidates true wsl).2
      (fun c _ => hexec c.command beepArgs)).2.1

/-- Claim C8 (witness): with `wslpath` failing on the legacy-PowerShell path
and succeeding on the PowerShell 7 path, the failure is logged, the
legacy translated candidate is omitted, the static candidates remain, and an
all-failing chain attempts every produced candidate. -/
theorem wslpath_failure_nonfatal_witness :
    (wslFailLine winPowershellPath "wslpath not found" ∈
        (getWslPowerShellCandidates true wslFailFirst).1 ∧
      (∀ c ∈ (getWslPowerShellCandidates true wslFailFirst).2,
        c.label ≠ "powershell.exe (wslpath)") ∧
      absPowershellCandidate ∈ (getWslPowerShellCandidates true wslFailFirst).2 ∧
      barePwshCandidate ∈ (getWslPowerShellCandidates true wslFailFirst).2 ∧
      absPwshCandidate ∈ (getWslPowerShellCandidates true wslFailFirst).2) ∧
    (tryCandidates execFailAll (getWslPowerShellCandidates true wslFailFirst).2).attempted =
      (getWslPowerShellCandidates true wslFailFirst).2 :=
  ⟨(wslpath_failure_nonfatal wslFailFirst).1 "wslpath not found" (by decide),
   (wslpath_failure_nonfatal wslFailFirst).2.2 execFailAll
     (fun cmd args => by simp [execFailAll])⟩

/-- Claim C10: the variant classifier declines every edit event whose document
language is not one of typescript, javascript, typescriptreact or
javascriptreact, regardless of the inserted length. -/
theorem variant_language_restriction (cfg : Config)
    (event : TextDocumentChangeEvent)
    (hlang : allowedLanguages.contains event.document.languageId = false) :
    isLikelyFromCodex cfg event = false := by
  rw [isLikelyFromCodex_eq, hlang]
  simp

/-- Claim C10 (witness): a 300-character insertion in a Python file is not
flagged by the variant classifier. -/
theorem variant_language_restriction_witness :
    allowedLanguages.contains evPython.document.languageId = false ∧
    isLikelyFromCodex none evPython = false :=
  ⟨by decide, variant_language_restriction none evPython (by decide)⟩

theorem intercalate_go (as : List String) :
    ∀ acc, String.intercalate.go acc " " as = joinSpaces (acc :: as) := by
  induction as with
  | nil => intro acc; rfl
  | cons a as ih =>
      intro acc
      rw [show String.intercalate.go acc " " (a :: as) =
            String.intercalate.go (acc ++ " " ++ a) " " as from rfl, ih]
      cases as with
      | nil => rfl
      | cons b bs =>
          show (acc ++ " " ++ a) ++ " " ++ joinSpaces (b :: bs) =
            acc ++ " " ++ (a ++ " " ++ joinSpaces (b :: bs))
          simp [String.append_assoc]

theorem intercalate_space_eq (l : List String) :
    String.intercalate " " l = joinSpaces l := by
  cases l with
  | nil => rfl
  | cons a as => exact intercalate_go as a

theorem flatMap_escape (l : List Char) :
    l.flatMap (fun c => if c = '"' then ['\\', '"'] else [c]) = escapeSpec l := by
  induction l with
  | nil => rfl
  | cons c cs ih => by_cases hc : c = '"' <;> simp [escapeSpec, hc, ih]

theorem escapeDoubleQuotes_data (arg : String) :
    (escapeDoubleQuotes arg).data = escapeSpec arg.data := by
  unfold escapeDoubleQuotes
  exact flatMap_escape arg.data

/-- Claim C9: an argument needs quoting exactly when it contains a whitespace
character, a single quote, or a double quote; such arguments are wrapped in
double quotes with every embedded double quote escaped, others are emitted
unchanged, and the logged command line is the command followed by the formatted
arguments joined by single spaces. -/
theorem quoteArg_format (cmd : String) (args : List String) (arg : String) :
    (arg.data.any needsQuoting = true ↔
      ∃ c ∈ arg.data, (jsWhitespace c || c = '\'' || c = '"') = true) ∧
    (arg.data.any needsQuoting = false → quoteArgForLog arg = arg) ∧
    (arg.data.any needsQuoting = true →
      (quoteArgForLog arg).data = '"' :: (escapeSpec arg.data ++ ['"'])) ∧
    formatCommandForLog cmd args =
      joinSpaces ((cmd :: args).map quoteArgForLog) := by
  refine ⟨?_, ?_, ?_, ?_⟩
  · simp [List.any_eq_true, needsQuoting]
  · intro h
    unfold quoteArgForLog
    simp [h]
  · intro h
    unfold quoteArgForLog
    simp [h, String.data_append, escapeDoubleQuotes_data]
  · unfold formatCommandForLog
    exact intercalate_space_eq _

/-- Claim C9 (witness): a plain argument passes through, an argument with
spaces and double quotes is wrapped and escaped, and a command line is joined
by single spaces. -/
theorem quoteArg_format_witness :
    quoteArgForLog "-NoProfile" = "-NoProfile" ∧
    (quoteArgForLog "say \"hi\" now").data =
      '"' :: (escapeSpec ("say \"hi\" now").data ++ ['"']) ∧
    formatCommandForLog "pwsh.exe" ["-NoProfile"] =
      joinSpaces (("pwsh.exe" :: ["-NoProfile"]).map quoteArgForLog) :=
  ⟨(quoteArg_format "x" [] "-NoProfile").2.1 (by decide),
   (quoteArg_format "x" [] "say \"hi\" now").2.2.1 (by decide),
   (quoteArg_format "pwsh.exe" ["-NoProfile"] "x").2.2.2⟩

